import Mathlib

/-!
Verification development for the Stendhal items-table pipeline
(`items.js`): a shallow embedding of the item attribute-derivation
pipeline — attribute extraction, class classification, the dual-wield
merge, damage-per-turn derivation and the "special traits" summary —
together with theorems checking the specification's statements.

Modelling conventions:
* JavaScript numbers are modelled as exact rationals extended with the
  three IEEE special values `Infinity`, `-Infinity` and `NaN`
  (`JSNum`).  Binary-floating-point rounding error and negative zero
  are outside the model; all arithmetic the pipeline performs is exact
  decimal arithmetic on parsed values, for which the rational model
  coincides with the JavaScript semantics of interest.
* JavaScript string-or-missing values (`undefined` / `null` / string)
  are modelled by `JSStrVal`.
* The DOM documents handed to `parser.parseItems` are modelled as
  structured values (`ItemNode` and friends) mirroring exactly the
  projections the code takes out of the DOM (`getElementsByTagName`,
  `getAttribute`).  `getAttribute` returning `null` is `Option.none`.
* A thrown `TypeError` is modelled by `Except.error`.  (In the
  JavaScript runtime a throw leaves previously pushed records in
  `main.items`; the theorems below only concern the thrown /
  not-thrown distinction and fully successful runs, for which the
  `Except` model agrees with the source.)
-/

deriving instance DecidableEq for Except

/-- A JavaScript number: an exact rational, or one of the IEEE special
values `Infinity`, `-Infinity`, `NaN`. -/
inductive JSNum where
  | finite (q : ℚ)
  | inf
  | negInf
  | nan
deriving DecidableEq, Repr

namespace JSNum

/-- `Number.isFinite`. -/
def isFinite : JSNum → Bool
  | finite _ => true
  | _ => false

/-- `Number.isNaN`. -/
def isNaN : JSNum → Bool
  | nan => true
  | _ => false

/-- JavaScript `+` on numbers. -/
def add : JSNum → JSNum → JSNum
  | finite p, finite q => finite (p + q)
  | finite _, inf => inf
  | finite _, negInf => negInf
  | inf, finite _ => inf
  | inf, inf => inf
  | inf, negInf => nan
  | negInf, finite _ => negInf
  | negInf, inf => nan
  | negInf, negInf => negInf
  | nan, _ => nan
  | _, nan => nan

/-- JavaScript `-` on numbers. -/
def sub : JSNum → JSNum → JSNum
  | finite p, finite q => finite (p - q)
  | finite _, inf => negInf
  | finite _, negInf => inf
  | inf, finite _ => inf
  | inf, inf => nan
  | inf, negInf => inf
  | negInf, finite _ => negInf
  | negInf, inf => negInf
  | negInf, negInf => nan
  | nan, _ => nan
  | _, nan => nan

/-- JavaScript `*` on numbers (negative zero is identified with zero). -/
def mul : JSNum → JSNum → JSNum
  | finite p, finite q => finite (p * q)
  | finite p, inf => if 0 < p then inf else if p < 0 then negInf else nan
  | finite p, negInf => if 0 < p then negInf else if p < 0 then inf else nan
  | inf, finite q => if 0 < q then inf else if q < 0 then negInf else nan
  | negInf, finite q => if 0 < q then negInf else if q < 0 then inf else nan
  | inf, inf => inf
  | inf, negInf => negInf
  | negInf, inf => negInf
  | negInf, negInf => inf
  | nan, _ => nan
  | _, nan => nan

/-- JavaScript `/` on numbers (negative zero is identified with zero,
so division by zero of a nonzero numerator yields `Infinity` or
`-Infinity` by the numerator's sign, and `0 / 0` is `NaN`). -/
def div : JSNum → JSNum → JSNum
  | finite p, finite q =>
      if q = 0 then (if 0 < p then inf else if p < 0 then negInf else nan)
      else finite (p / q)
  | finite _, inf => finite 0
  | finite _, negInf => finite 0
  | inf, finite q => if q < 0 then negInf else inf
  | negInf, finite q => if q < 0 then inf else negInf
  | inf, inf => nan
  | inf, negInf => nan
  | negInf, inf => nan
  | negInf, negInf => nan
  | nan, _ => nan
  | _, nan => nan

/-- `Math.round`: floor of `x + 1/2` on finite values, identity on the
special values. -/
def round : JSNum → JSNum
  | finite q => finite ((⌊q + 1/2⌋ : ℤ) : ℚ)
  | inf => inf
  | negInf => negInf
  | nan => nan

/-- JavaScript strict equality `===` on numbers: `NaN` is equal to
nothing, including itself. -/
def strictEq : JSNum → JSNum → Bool
  | finite p, finite q => p == q
  | inf, inf => true
  | negInf, negInf => true
  | _, _ => false

/-- JavaScript strict inequality `!==` on numbers. -/
def strictNeq (a b : JSNum) : Bool := !(strictEq a b)

/-- JavaScript `>` on numbers: any comparison involving `NaN` is false. -/
def gtB : JSNum → JSNum → Bool
  | finite p, finite q => decide (q < p)
  | inf, finite _ => true
  | inf, negInf => true
  | finite _, negInf => true
  | _, _ => false

theorem addComm (a b : JSNum) : add a b = add b a := by
  cases a <;> cases b <;> simp [add] <;> ring

end JSNum

/-- A JavaScript string-valued slot: `undefined`, `null`, or a string. -/
inductive JSStrVal where
  | undef
  | null
  | str (s : String)
deriving DecidableEq, Repr

/-- `getAttribute`'s result (`null` or a string) as a `JSStrVal`. -/
def optToJS : Option String → JSStrVal
  | none => JSStrVal.null
  | some s => JSStrVal.str s

/-- JavaScript strict equality `===` between a string-valued slot and a
string literal. -/
def jsStrEqLit : JSStrVal → String → Bool
  | JSStrVal.str t, s => t == s
  | _, _ => false

/-- JavaScript truthiness of a string-valued slot: `undefined`, `null`
and the empty string are falsy, every other string is truthy. -/
def jsTruthy : JSStrVal → Bool
  | JSStrVal.undef => false
  | JSStrVal.null => false
  | JSStrVal.str s => !(s == "")

/-- JavaScript string coercion of a string-valued slot, as performed by
the `+` concatenation operator. -/
def jsStrRender : JSStrVal → String
  | JSStrVal.undef => "undefined"
  | JSStrVal.null => "null"
  | JSStrVal.str s => s

/-- JavaScript string coercion of a `getAttribute` result in a string
concatenation (`null` renders as `"null"`). -/
def jsOptRender : Option String → String
  | none => "null"
  | some s => s

/-- JavaScript `String.prototype.includes`: substring occurrence. -/
def jsIncludes (s sub : String) : Bool := decide (sub.toList <:+: s.toList)

/-- Numeric value of a list of decimal digit characters. -/
def digitsToNat (ds : List Char) : ℕ :=
  ds.foldl (fun a c => a * 10 + (c.toNat - 48)) 0

/-- How many times `p` divides `n` (with fuel; `p ≥ 2` in all uses). -/
def countFactorAux (p : ℕ) : ℕ → ℕ → ℕ
  | 0, _ => 0
  | fuel + 1, n => if 2 ≤ p ∧ 0 < n ∧ n % p = 0 then countFactorAux p fuel (n / p) + 1 else 0

/-- Multiplicity of the prime `p` in `n`. -/
def countFactor (p n : ℕ) : ℕ := countFactorAux p n n

/-- Renders the integer `n / 10^k` (with `k` minimal) the way
JavaScript renders the corresponding decimal number. -/
def renderDecimal (n : ℤ) (k : ℕ) : String :=
  if k = 0 then toString n
  else
    let sgn := if n < 0 then "-" else ""
    let m := n.natAbs
    let ip := m / 10 ^ k
    let fp := m % 10 ^ k
    let fpStr := toString fp
    let pad := String.mk (List.replicate (k - fpStr.length) '0')
    sgn ++ toString ip ++ "." ++ pad ++ fpStr

/-- JavaScript number-to-string conversion on the rationals produced by
this pipeline: exact shortest decimal notation for rationals with a
terminating decimal expansion (the only rationals the pipeline ever
renders).  Exponential notation for extreme magnitudes is outside the
model. -/
def ratToString (q : ℚ) : String :=
  let d := q.den
  let a := countFactor 2 d
  let b := countFactor 5 d
  if d = 2 ^ a * 5 ^ b then
    let k := max a b
    renderDecimal (q.num * (10 ^ k : ℕ) / (d : ℤ)) k
  else
    "nonTerminatingDecimal"

/-- JavaScript string coercion of a number. -/
def jsNumToString : JSNum → String
  | JSNum.nan => "NaN"
  | JSNum.inf => "Infinity"
  | JSNum.negInf => "-Infinity"
  | JSNum.finite q => ratToString q

/-- `Number.parseFloat` on a string: skip leading whitespace, optional
sign, then the longest prefix that is `Infinity`, or decimal digits
with an optional fraction and an optional well-formed exponent;
anything unparseable is `NaN`. -/
def jsParseFloat (s : String) : JSNum :=
  let cs := s.toList.dropWhile (fun c => c == ' ' || c == '\t' || c == '\n' || c == '\r')
  let sgnNeg : Bool :=
    match cs with
    | '-' :: _ => true
    | _ => false
  let cs1 : List Char :=
    match cs with
    | '+' :: rest => rest
    | '-' :: rest => rest
    | _ => cs
  if cs1.take 8 = "Infinity".toList then
    if sgnNeg then JSNum.negInf else JSNum.inf
  else
    let ip := cs1.takeWhile Char.isDigit
    let cs2 := cs1.dropWhile Char.isDigit
    let fp : List Char :=
      match cs2 with
      | '.' :: rest => rest.takeWhile Char.isDigit
      | _ => []
    let cs3 : List Char :=
      match cs2 with
      | '.' :: rest => rest.dropWhile Char.isDigit
      | _ => cs2
    if ip.isEmpty && fp.isEmpty then JSNum.nan
    else
      let mantissa : ℚ := (digitsToNat ip : ℚ) + (digitsToNat fp : ℚ) / (10 ^ fp.length : ℕ)
      let expo : ℤ :=
        match cs3 with
        | 'e' :: rest =>
          let eNeg : Bool := match rest with | '-' :: _ => true | _ => false
          let rest2 : List Char :=
            match rest with
            | '+' :: r => r
            | '-' :: r => r
            | _ => rest
          let eds := rest2.takeWhile Char.isDigit
          if eds.isEmpty then 0 else (if eNeg then -1 else 1) * (digitsToNat eds : ℤ)
        | 'E' :: rest =>
          let eNeg : Bool := match rest with | '-' :: _ => true | _ => false
          let rest2 : List Char :=
            match rest with
            | '+' :: r => r
            | '-' :: r => r
            | _ => rest
          let eds := rest2.takeWhile Char.isDigit
          if eds.isEmpty then 0 else (if eNeg then -1 else 1) * (digitsToNat eds : ℤ)
        | _ => 0
      JSNum.finite ((if sgnNeg then -1 else 1) * mantissa * (10 : ℚ) ^ expo)

/-- `Number.parseFloat` applied to a `getAttribute` result: `null` is
coerced to the string `"null"`, which parses to `NaN`. -/
def jsParseFloatOpt : Option String → JSNum
  | none => JSNum.nan
  | some s => jsParseFloat s

namespace util

/-- Embeds `util.parseNumberDefault`: parse, and fall back to the
default on `NaN` or a non-finite result. -/
def parseNumberDefault (value : Option String) (d : JSNum) : JSNum :=
  let res := jsParseFloatOpt value
  if res.isNaN || !res.isFinite then d else res

end util

namespace classes

/-- Embeds `classes.groups.weapons`. -/
def groups_weapons : List String := ["axes", "clubs", "ranged", "swords", "whips"]

/-- Embeds `classes.groups.protective`. -/
def groups_protective : List String := ["armors", "boots", "cloaks", "helmets", "legs", "shields"]

/-- Embeds `classes.groups.projectiles`. -/
def groups_projectiles : List String := ["arrows", "missiles"]

/-- Embeds `classes.isWeaponType` (`indexOf(c) > -1` is membership). -/
def isWeaponType (c : String) : Bool :=
  c == "weapons" || groups_weapons.contains c

/-- Embeds `classes.isArmorType`. -/
def isArmorType (c : String) : Bool :=
  c == "protective" || groups_protective.contains c

/-- Embeds `classes.isRangedType`. -/
def isRangedType (c : String) : Bool :=
  c == "ranged"

/-- Embeds `classes.isProjectileType`. -/
def isProjectileType (c : String) : Bool :=
  c == "projectiles" || groups_projectiles.contains c

end classes

/-- One child element of an `<attributes>` block, e.g. `<atk value="5"/>`:
its tag name and its optional `value` attribute. -/
structure AttrElem where
  name : String
  value : Option String
deriving DecidableEq, Repr

/-- One `<susceptibility>` element: its optional `type` and `value`
attributes. -/
structure SusElem where
  type : Option String
  value : Option String
deriving DecidableEq, Repr

/-- The first `<type>` element of an item: its optional `class` and
`subclass` attributes (`class` is a Lean keyword, hence `itemClass`). -/
structure TypeElem where
  itemClass : Option String
  subclass : Option String
deriving DecidableEq, Repr

/-- One `<item>` node as projected by `parser.parseItems`:
`getAttribute("name")`, the first `<type>` element if any, the `value`
attribute of the first `<value>` element if any, the children of the
first `<attributes>` element if any, all `<susceptibility>` elements,
and whether an `<unattainable>` element exists. -/
structure ItemNode where
  name : Option String
  typeInfo : Option TypeElem
  valueInfo : Option (Option String)
  attributes : Option (List AttrElem)
  susceptibilities : List SusElem
  unattainable : Bool
deriving DecidableEq, Repr

/-- A normalized item record as accumulated in `main.items`.  The
source field `def` is a Lean keyword and is embedded as `defense`.
`dpt` and `special` are initialized to placeholders and assigned
before the record is ever pushed, exactly as in the source. -/
structure ItemRecord where
  name : JSStrVal
  itemClass : JSStrVal
  image : JSStrVal
  value : JSStrVal
  level : JSNum
  rate : JSNum
  atk : JSNum
  defense : JSNum
  range : JSNum
  dpt : JSNum
  special : List JSStrVal
deriving DecidableEq, Repr

namespace parser

/-- `attributes.getElementsByTagName(name)[0]`: the first element of
the attributes block with the given tag name. -/
def attrFind (bag : List AttrElem) (name : String) : Option AttrElem :=
  bag.find? (fun e => e.name == name)

/-- Embeds `parser.numberAttribute` (the source's optional `def=0`
parameter is passed explicitly). -/
def numberAttribute (bag : List AttrElem) (name : String) (d : JSNum) : JSNum :=
  match attrFind bag name with
  | none => d
  | some e => util.parseNumberDefault e.value d

/-- Embeds `parser.stringAttribute`: `undefined` when the attribute
element is absent, otherwise its `value` attribute (possibly `null`). -/
def stringAttribute (bag : List AttrElem) (name : String) : JSStrVal :=
  match attrFind bag name with
  | none => JSStrVal.undef
  | some e => optToJS e.value

end parser

namespace main

/-- Embeds `main.pop`: find the first record with the given name,
remove it from the list, and return it. -/
def pop (name : String) : List ItemRecord → Option ItemRecord × List ItemRecord
  | [] => (none, [])
  | r :: rest =>
    if jsStrEqLit r.name name then (some r, rest)
    else
      let pr := pop name rest
      (pr.1, r :: pr.2)

end main

namespace parser

/-- The dual-wield lookup of `parseItems`: for a half of the sword
pair, pop the complementary half from the collection. -/
def dualWieldPop (name : JSStrVal) (items : List ItemRecord) :
    Option ItemRecord × List ItemRecord :=
  if jsStrEqLit name "l hand sword" then main.pop "r hand sword" items
  else if jsStrEqLit name "r hand sword" then main.pop "l hand sword" items
  else (none, items)

/-- The merge mutation of `parseItems`: rename the surviving record and
combine `atk` and `def`. -/
def mergeRecords (lrSword item : ItemRecord) : ItemRecord :=
  { lrSword with
    name := JSStrVal.str "l/r hand swords",
    atk := JSNum.add lrSword.atk item.atk,
    defense := JSNum.add lrSword.defense item.defense }

/-- `item = lrSword` when the pop found the complementary half,
otherwise the fresh record. -/
def mergeOpt : Option ItemRecord → ItemRecord → ItemRecord
  | some lrSword, item => mergeRecords lrSword item
  | none, item => item

/-- The `item` object literal of `parseItems` (before the merge, `dpt`
and `special` assignments). -/
def initRecord (node : ItemNode) (t : TypeElem) (bag : List AttrElem) : ItemRecord :=
  { name := optToJS node.name,
    itemClass := optToJS t.itemClass,
    image := optToJS t.subclass,
    value :=
      match node.valueInfo with
      | some v => optToJS v
      | none => JSStrVal.str "0",
    level := numberAttribute bag "min_level" (JSNum.finite 0),
    rate := numberAttribute bag "rate" (JSNum.finite 0),
    atk := numberAttribute bag "atk" (JSNum.finite 0),
    defense := numberAttribute bag "def" (JSNum.finite 0),
    range := numberAttribute bag "range" (JSNum.finite 0),
    dpt := JSNum.nan,
    special := [] }

/-- `item.dpt = Math.round((item.atk / item.rate) * 100) / 100`. -/
def computeDpt (atk rate : JSNum) : JSNum :=
  JSNum.div (JSNum.round (JSNum.mul (JSNum.div atk rate) (JSNum.finite 100))) (JSNum.finite 100)

/-- The damage-nature trait: `damagetype` is pushed whenever it is not
`undefined` (a `null` attribute value is pushed as `null`). -/
def natureTraits (bag : List AttrElem) : List JSStrVal :=
  match stringAttribute bag "damagetype" with
  | JSStrVal.undef => []
  | v => [v]

/-- The status-effect trait value derived from a `statusattack` string:
the poison/venom substring check takes precedence, then the comma rule
(`split(",")[1]`, the second comma-separated field), else verbatim. -/
def statusTrait (sa : String) : String :=
  if jsIncludes sa "poison" || jsIncludes sa "venom" then "poison"
  else if jsIncludes sa "," then (sa.splitOn ",").getD 1 ""
  else sa

/-- The status-effect traits pushed for the `statusattack` attribute.
The `null` case never contributes here because `parseItemsStep` turns
it into a thrown `TypeError` beforehand. -/
def statusTraits (bag : List AttrElem) : List JSStrVal :=
  match stringAttribute bag "statusattack" with
  | JSStrVal.str sa => [JSStrVal.str (statusTrait sa)]
  | _ => []

/-- The trait pushed for one `<susceptibility>` element. -/
def susTraitOne (su : SusElem) : List JSStrVal :=
  let value := JSNum.div (JSNum.round (JSNum.mul
    (util.parseNumberDefault su.value (JSNum.finite 1)) (JSNum.finite 1000))) (JSNum.finite 10)
  if JSNum.strictNeq value (JSNum.finite 100) then
    let display := JSNum.sub (JSNum.finite 100) value
    [JSStrVal.str (jsOptRender su.type ++ " (" ++
      (if JSNum.gtB display (JSNum.finite 0) then "+" else "") ++
      jsNumToString display ++ "%)")]
  else []

/-- The susceptibility loop of `parseItems`. -/
def susTraits (sus : List SusElem) : List JSStrVal :=
  sus.foldl (fun acc su => acc ++ susTraitOne su) []

/-- The lifesteal trait. -/
def lifestealTraits (bag : List AttrElem) : List JSStrVal :=
  let lifesteal := JSNum.mul (numberAttribute bag "lifesteal" (JSNum.finite 0)) (JSNum.finite 100)
  if JSNum.strictNeq lifesteal (JSNum.finite 0) then
    [JSStrVal.str ("lifesteal (" ++ (if JSNum.gtB lifesteal (JSNum.finite 0) then "+" else "") ++
      jsNumToString lifesteal ++ "%)")]
  else []

/-- The context-conditional `atk` / `def` / `range` traits, gated on the
selected class `c` (the source's `main.className`). -/
def statTraits (c : String) (item : ItemRecord) : List JSStrVal :=
  (if !classes.isWeaponType c && !classes.isProjectileType c &&
      JSNum.strictNeq item.atk (JSNum.finite 0) then
    [JSStrVal.str ("atk=" ++ jsNumToString item.atk)]
  else []) ++
  (if !classes.isArmorType c && JSNum.strictNeq item.defense (JSNum.finite 0) then
    [JSStrVal.str ("def (" ++ jsNumToString item.defense ++ ")")]
  else []) ++
  (if !classes.isRangedType c && !classes.isProjectileType c &&
      JSNum.strictNeq item.range (JSNum.finite 0) then
    [JSStrVal.str ("range (" ++ jsNumToString item.range ++ ")")]
  else [])

/-- The consumable-effect traits (`amount` / `immunization` / `regen` /
`frequency`). -/
def consumableTraits (bag : List AttrElem) : List JSStrVal :=
  let consumeAmount := numberAttribute bag "amount" (JSNum.finite 0)
  if JSNum.strictNeq consumeAmount (JSNum.finite 0) then
    let cures := stringAttribute bag "immunization"
    if jsTruthy cures then
      [JSStrVal.str ("cure (" ++ jsStrRender cures ++ ")"),
       JSStrVal.str ("immunity duration (" ++ jsNumToString consumeAmount ++ ")")]
    else
      let regenType := if JSNum.gtB consumeAmount (JSNum.finite 0) then "heal" else "hurt"
      let regen := numberAttribute bag "regen" (JSNum.finite 0)
      let frequency := numberAttribute bag "frequency" (JSNum.finite 0)
      [JSStrVal.str (regenType ++ " (" ++ jsNumToString consumeAmount ++ ")")] ++
      (if JSNum.strictNeq frequency (JSNum.finite 1) || JSNum.strictNeq regen consumeAmount then
        [JSStrVal.str ("regen (" ++ jsNumToString regen ++ ")"),
         JSStrVal.str ("frequency (" ++ jsNumToString frequency ++ ")")]
      else [])
  else []

/-- The whole `item.special` list, in the push order of the source. -/
def specialList (c : String) (bag : List AttrElem) (sus : List SusElem)
    (item : ItemRecord) : List JSStrVal :=
  natureTraits bag ++ statusTraits bag ++ susTraits sus ++ lifestealTraits bag ++
    statTraits c item ++ consumableTraits bag

/-- The `dpt` and `special` assignments performed on the (possibly
merged) record before it is pushed. -/
def finalize (c : String) (bag : List AttrElem) (sus : List SusElem)
    (item : ItemRecord) : ItemRecord :=
  { item with
    dpt := computeDpt item.atk item.rate,
    special := specialList c bag sus item }

/-- One iteration of the `parseItems` loop acting on the collection
`items` (the source's `main.items`), with the selected class `c` (the
source's `main.className`) and the visibility flag `s` (the source's
`main.showUnattainable`).  A missing `<type>` element, a missing
`<attributes>` element, or a `statusattack` element whose `value`
attribute is `null` makes the original code throw a `TypeError`
(`undefined.getAttribute`, `undefined.getElementsByTagName`,
`null.includes`); those throws are modelled as `Except.error` and are
hoisted to the front of the step, which yields the same result since an
error discards the step. -/
def parseItemsStep (c : String) (s : Bool) (items : List ItemRecord)
    (node : ItemNode) : Except String (List ItemRecord) :=
  match node.typeInfo with
  | none => Except.error "TypeError: typeInfo is undefined"
  | some t =>
    match node.attributes with
    | none => Except.error "TypeError: attributes is undefined"
    | some bag =>
      if stringAttribute bag "statusattack" == JSStrVal.null then
        Except.error "TypeError: statusAttack.includes is not a function"
      else
        let item0 := initRecord node t bag
        let pr := dualWieldPop item0.name items
        let item2 := finalize c bag node.susceptibilities (mergeOpt pr.1 item0)
        if node.unattainable && !s then Except.ok pr.2
        else Except.ok (pr.2 ++ [item2])

/-- Embeds `parser.parseItems`: fold the step over the item nodes of
one document, threading the collection. -/
def parseItems (c : String) (s : Bool) (nodes : List ItemNode)
    (items : List ItemRecord) : Except String (List ItemRecord) :=
  match nodes with
  | [] => Except.ok items
  | n :: rest =>
    match parseItemsStep c s items n with
    | Except.error e => Except.error e
    | Except.ok items1 => parseItems c s rest items1

end parser

/-- Builds a concrete attribute element `<name value="..."/>` for test
inputs. -/
def mkAttr (p : String × String) : AttrElem := { name := p.1, value := some p.2 }

/-- Builds a concrete well-formed item node for test inputs. -/
def mkNode (name : String) (attrs : List (String × String)) (sus : List (String × String)) : ItemNode :=
  { name := some name,
    typeInfo := some { itemClass := some "sword", subclass := some "img" },
    valueInfo := none,
    attributes := some (attrs.map mkAttr),
    susceptibilities := sus.map (fun p => { type := some p.1, value := some p.2 }),
    unattainable := false }

namespace parser

@[simp] theorem initRecord_name (node : ItemNode) (t : TypeElem) (bag : List AttrElem) :
    (initRecord node t bag).name = optToJS node.name := rfl

@[simp] theorem initRecord_atk (node : ItemNode) (t : TypeElem) (bag : List AttrElem) :
    (initRecord node t bag).atk = numberAttribute bag "atk" (JSNum.finite 0) := rfl

@[simp] theorem initRecord_defense (node : ItemNode) (t : TypeElem) (bag : List AttrElem) :
    (initRecord node t bag).defense = numberAttribute bag "def" (JSNum.finite 0) := rfl

@[simp] theorem initRecord_rate (node : ItemNode) (t : TypeElem) (bag : List AttrElem) :
    (initRecord node t bag).rate = numberAttribute bag "rate" (JSNum.finite 0) := rfl

@[simp] theorem finalize_name (c : String) (bag : List AttrElem) (sus : List SusElem)
    (item : ItemRecord) : (finalize c bag sus item).name = item.name := rfl

@[simp] theorem finalize_atk (c : String) (bag : List AttrElem) (sus : List SusElem)
    (item : ItemRecord) : (finalize c bag sus item).atk = item.atk := rfl

@[simp] theorem finalize_defense (c : String) (bag : List AttrElem) (sus : List SusElem)
    (item : ItemRecord) : (finalize c bag sus item).defense = item.defense := rfl

@[simp] theorem finalize_rate (c : String) (bag : List AttrElem) (sus : List SusElem)
    (item : ItemRecord) : (finalize c bag sus item).rate = item.rate := rfl

@[simp] theorem finalize_dpt (c : String) (bag : List AttrElem) (sus : List SusElem)
    (item : ItemRecord) : (finalize c bag sus item).dpt = computeDpt item.atk item.rate := rfl

@[simp] theorem finalize_special (c : String) (bag : List AttrElem) (sus : List SusElem)
    (item : ItemRecord) : (finalize c bag sus item).special = specialList c bag sus item := rfl

@[simp] theorem mergeRecords_name (lr item : ItemRecord) :
    (mergeRecords lr item).name = JSStrVal.str "l/r hand swords" := rfl

@[simp] theorem mergeRecords_atk (lr item : ItemRecord) :
    (mergeRecords lr item).atk = JSNum.add lr.atk item.atk := rfl

@[simp] theorem mergeRecords_defense (lr item : ItemRecord) :
    (mergeRecords lr item).defense = JSNum.add lr.defense item.defense := rfl

@[simp] theorem mergeRecords_rate (lr item : ItemRecord) :
    (mergeRecords lr item).rate = lr.rate := rfl

@[simp] theorem mergeOpt_none (item : ItemRecord) : mergeOpt none item = item := rfl

@[simp] theorem mergeOpt_some (lr item : ItemRecord) :
    mergeOpt (some lr) item = mergeRecords lr item := rfl

theorem jsStrEqLit_false_of_ne {v : JSStrVal} {s : String}
    (h : v ≠ JSStrVal.str s) : jsStrEqLit v s = false := by
  cases v with
  | undef => rfl
  | null => rfl
  | str t =>
    simp only [jsStrEqLit, beq_eq_false_iff_ne, ne_eq]
    intro he
    exact h (by rw [he])

theorem pop_not_found (nm : String) (items : List ItemRecord)
    (h : ∀ r ∈ items, jsStrEqLit r.name nm = false) :
    main.pop nm items = (none, items) := by
  induction items with
  | nil => rfl
  | cons r rest ih =>
    have hr := h r (List.mem_cons_self r rest)
    have hrest := ih (fun x hx => h x (List.mem_cons_of_mem r hx))
    simp [main.pop, hr, hrest]

theorem pop_found_append (nm : String) (pre : List ItemRecord) (x : ItemRecord)
    (post : List ItemRecord)
    (hpre : ∀ r ∈ pre, jsStrEqLit r.name nm = false)
    (hx : jsStrEqLit x.name nm = true) :
    main.pop nm (pre ++ x :: post) = (some x, pre ++ post) := by
  induction pre with
  | nil => simp [main.pop, hx]
  | cons r rest ih =>
    have hr := hpre r (List.mem_cons_self r rest)
    have hrest := ih (fun y hy => hpre y (List.mem_cons_of_mem r hy))
    simp [main.pop, hr, hrest]

theorem pop_mem (nm : String) (items : List ItemRecord) (r : ItemRecord)
    (h : r ∈ (main.pop nm items).2) : r ∈ items := by
  induction items with
  | nil => simpa [main.pop] using h
  | cons x rest ih =>
    cases hx : jsStrEqLit x.name nm with
    | true =>
      simp [main.pop, hx] at h
      exact List.mem_cons_of_mem x h
    | false =>
      simp [main.pop, hx] at h
      rcases h with h | h
      · exact h ▸ List.mem_cons_self x rest
      · exact List.mem_cons_of_mem x (ih h)

theorem dualWieldPop_mem (name : JSStrVal) (items : List ItemRecord) (r : ItemRecord)
    (h : r ∈ (dualWieldPop name items).2) : r ∈ items := by
  unfold dualWieldPop at h
  cases h1 : jsStrEqLit name "l hand sword" with
  | true => exact pop_mem _ _ _ (by simpa [h1] using h)
  | false =>
    cases h2 : jsStrEqLit name "r hand sword" with
    | true => exact pop_mem _ _ _ (by simpa [h1, h2] using h)
    | false => simpa [h1, h2] using h

theorem parseItemsStep_ok_eq (c : String) (s : Bool) (items : List ItemRecord)
    (node : ItemNode) (t : TypeElem) (bag : List AttrElem)
    (ht : node.typeInfo = some t) (ha : node.attributes = some bag)
    (hs : stringAttribute bag "statusattack" ≠ JSStrVal.null)
    (hu : node.unattainable = false) :
    parseItemsStep c s items node =
      Except.ok ((dualWieldPop (optToJS node.name) items).2 ++
        [finalize c bag node.susceptibilities
          (mergeOpt (dualWieldPop (optToJS node.name) items).1 (initRecord node t bag))]) := by
  have hbeq : (stringAttribute bag "statusattack" == JSStrVal.null) = false :=
    beq_eq_false_iff_ne.mpr hs
  simp [parseItemsStep, ht, ha, hbeq, hu]

end parser

namespace parser

/-- Records counted by the "one record per sword pair" property. -/
def isPairName (r : ItemRecord) : Bool :=
  jsStrEqLit r.name "l hand sword" || jsStrEqLit r.name "r hand sword" ||
    jsStrEqLit r.name "l/r hand swords"

theorem merge_run (c : String) (s : Bool) (items0 : List ItemRecord)
    (nF nS : ItemNode) (tF tS : TypeElem) (bF bS : List AttrElem) (fn sn : String)
    (hpair : (fn = "l hand sword" ∧ sn = "r hand sword") ∨
      (fn = "r hand sword" ∧ sn = "l hand sword"))
    (hFn : nF.name = some fn) (hSn : nS.name = some sn)
    (hFt : nF.typeInfo = some tF) (hSt : nS.typeInfo = some tS)
    (hFa : nF.attributes = some bF) (hSa : nS.attributes = some bS)
    (hFs : stringAttribute bF "statusattack" ≠ JSStrVal.null)
    (hSs : stringAttribute bS "statusattack" ≠ JSStrVal.null)
    (hFu : nF.unattainable = false) (hSu : nS.unattainable = false)
    (h0 : ∀ r ∈ items0, r.name ≠ JSStrVal.str "l hand sword" ∧
      r.name ≠ JSStrVal.str "r hand sword" ∧ r.name ≠ JSStrVal.str "l/r hand swords") :
    ∃ m : ItemRecord,
      parseItems c s [nF, nS] items0 = Except.ok (items0 ++ [m]) ∧
      m.name = JSStrVal.str "l/r hand swords" ∧
      m.atk = JSNum.add (numberAttribute bF "atk" (JSNum.finite 0))
        (numberAttribute bS "atk" (JSNum.finite 0)) ∧
      m.defense = JSNum.add (numberAttribute bF "def" (JSNum.finite 0))
        (numberAttribute bS "def" (JSNum.finite 0)) ∧
      (items0 ++ [m]).filter isPairName = [m] := by
  have hstepF := parseItemsStep_ok_eq c s items0 nF tF bF hFt hFa hFs hFu
  have hF0 : ∀ r ∈ items0, jsStrEqLit r.name "l hand sword" = false :=
    fun r hr => jsStrEqLit_false_of_ne (h0 r hr).1
  have hR0 : ∀ r ∈ items0, jsStrEqLit r.name "r hand sword" = false :=
    fun r hr => jsStrEqLit_false_of_ne (h0 r hr).2.1
  have eLL : jsStrEqLit (optToJS (some "l hand sword")) "l hand sword" = true := by decide
  have eLR : jsStrEqLit (optToJS (some "l hand sword")) "r hand sword" = false := by decide
  have eRL : jsStrEqLit (optToJS (some "r hand sword")) "l hand sword" = false := by decide
  have eRR : jsStrEqLit (optToJS (some "r hand sword")) "r hand sword" = true := by decide
  have hpopF : dualWieldPop (optToJS nF.name) items0 = (none, items0) := by
    rcases hpair with ⟨hf, _⟩ | ⟨hf, _⟩
    · simp [dualWieldPop, hFn, hf, eLL, pop_not_found _ _ hR0]
    · simp [dualWieldPop, hFn, hf, eRL, eRR, pop_not_found _ _ hF0]
  set rec1 := finalize c bF nF.susceptibilities (initRecord nF tF bF) with hrec1
  have hstepF2 : parseItemsStep c s items0 nF = Except.ok (items0 ++ [rec1]) := by
    rw [hstepF, hpopF]
    rfl
  have hrec1name : rec1.name = JSStrVal.str fn := by
    simp [hrec1, hFn, optToJS]
  have hstepS := parseItemsStep_ok_eq c s (items0 ++ [rec1]) nS tS bS hSt hSa hSs hSu
  have hpopS : dualWieldPop (optToJS nS.name) (items0 ++ [rec1]) = (some rec1, items0) := by
    rcases hpair with ⟨hf, hsn⟩ | ⟨hf, hsn⟩
    · have hfind := pop_found_append "l hand sword" items0 rec1 [] hF0
        (by rw [hrec1name, hf]; decide)
      simp only [List.append_nil] at hfind
      simp [dualWieldPop, hSn, hsn, eRL, eRR, hfind]
    · have hfind := pop_found_append "r hand sword" items0 rec1 [] hR0
        (by rw [hrec1name, hf]; decide)
      simp only [List.append_nil] at hfind
      simp [dualWieldPop, hSn, hsn, eLL, hfind]
  set m := finalize c bS nS.susceptibilities (mergeRecords rec1 (initRecord nS tS bS)) with hm
  have hstepS2 : parseItemsStep c s (items0 ++ [rec1]) nS = Except.ok (items0 ++ [m]) := by
    rw [hstepS, hpopS]
    rfl
  have hrun : parseItems c s [nF, nS] items0 = Except.ok (items0 ++ [m]) := by
    simp [parseItems, hstepF2, hstepS2]
  refine ⟨m, hrun, ?_, ?_, ?_, ?_⟩
  · simp [hm]
  · simp [hm, hrec1]
  · simp [hm, hrec1]
  · have hmname : m.name = JSStrVal.str "l/r hand swords" := by simp [hm]
    have hpm : isPairName m = true := by
      simp only [isPairName, hmname]
      decide
    have hfilter0 : items0.filter isPairName = [] := by
      rw [List.filter_eq_nil]
      intro r hr
      simp [isPairName, hF0 r hr, hR0 r hr,
        jsStrEqLit_false_of_ne (h0 r hr).2.2]
    rw [List.filter_append, hfilter0]
    simp [List.filter_cons, hpm]

end parser

/-- C1: raw entries named "l hand sword" and "r hand sword" processed in
one population run, in either arrival order, leave exactly one record
for the pair in the collection, named "l/r hand swords", whose atk and
def are the sums of the two entries' atk and def values; the
first-arriving half's record is removed when the second half arrives
(the collection extends only by the single merged record). -/
theorem c1_dual_wield_merge (c : String) (s : Bool) (items0 : List ItemRecord)
    (n1 n2 : ItemNode) (t1 t2 : TypeElem) (b1 b2 : List AttrElem)
    (h1n : n1.name = some "l hand sword") (h2n : n2.name = some "r hand sword")
    (h1t : n1.typeInfo = some t1) (h2t : n2.typeInfo = some t2)
    (h1a : n1.attributes = some b1) (h2a : n2.attributes = some b2)
    (h1s : parser.stringAttribute b1 "statusattack" ≠ JSStrVal.null)
    (h2s : parser.stringAttribute b2 "statusattack" ≠ JSStrVal.null)
    (h1u : n1.unattainable = false) (h2u : n2.unattainable = false)
    (h0 : ∀ r ∈ items0, r.name ≠ JSStrVal.str "l hand sword" ∧
      r.name ≠ JSStrVal.str "r hand sword" ∧ r.name ≠ JSStrVal.str "l/r hand swords") :
    (∃ m : ItemRecord,
      parser.parseItems c s [n1, n2] items0 = Except.ok (items0 ++ [m]) ∧
      m.name = JSStrVal.str "l/r hand swords" ∧
      m.atk = JSNum.add (parser.numberAttribute b1 "atk" (JSNum.finite 0))
        (parser.numberAttribute b2 "atk" (JSNum.finite 0)) ∧
      m.defense = JSNum.add (parser.numberAttribute b1 "def" (JSNum.finite 0))
        (parser.numberAttribute b2 "def" (JSNum.finite 0)) ∧
      (items0 ++ [m]).filter parser.isPairName = [m]) ∧
    (∃ m : ItemRecord,
      parser.parseItems c s [n2, n1] items0 = Except.ok (items0 ++ [m]) ∧
      m.name = JSStrVal.str "l/r hand swords" ∧
      m.atk = JSNum.add (parser.numberAttribute b1 "atk" (JSNum.finite 0))
        (parser.numberAttribute b2 "atk" (JSNum.finite 0)) ∧
      m.defense = JSNum.add (parser.numberAttribute b1 "def" (JSNum.finite 0))
        (parser.numberAttribute b2 "def" (JSNum.finite 0)) ∧
      (items0 ++ [m]).filter parser.isPairName = [m]) := by
  constructor
  · exact parser.merge_run c s items0 n1 n2 t1 t2 b1 b2 "l hand sword" "r hand sword"
      (Or.inl ⟨rfl, rfl⟩) h1n h2n h1t h2t h1a h2a h1s h2s h1u h2u h0
  · obtain ⟨m, hrun, hname, hatk, hdef, hfil⟩ :=
      parser.merge_run c s items0 n2 n1 t2 t1 b2 b1 "r hand sword" "l hand sword"
        (Or.inr ⟨rfl, rfl⟩) h2n h1n h2t h1t h2a h1a h2s h1s h2u h1u h0
    exact ⟨m, hrun, hname, by rw [hatk, JSNum.addComm], by rw [hdef, JSNum.addComm], hfil⟩

/-- Concrete input nodes for exercising the dual-wield merge. -/
def c1NodeL : ItemNode := mkNode "l hand sword" [("atk", "5"), ("def", "1")] []

/-- Concrete input nodes for exercising the dual-wield merge. -/
def c1NodeR : ItemNode := mkNode "r hand sword" [("atk", "7"), ("def", "2")] []

/-- Witness for C1: the merge theorem applied to the spec's example
entries (atk 5 and 7, def 1 and 2) starting from an empty collection. -/
theorem c1_dual_wield_merge_witness :
    (∃ m : ItemRecord,
      parser.parseItems "swords" false [c1NodeL, c1NodeR] [] = Except.ok ([] ++ [m]) ∧
      m.name = JSStrVal.str "l/r hand swords" ∧
      m.atk = JSNum.add
        (parser.numberAttribute [mkAttr ("atk", "5"), mkAttr ("def", "1")] "atk" (JSNum.finite 0))
        (parser.numberAttribute [mkAttr ("atk", "7"), mkAttr ("def", "2")] "atk" (JSNum.finite 0)) ∧
      m.defense = JSNum.add
        (parser.numberAttribute [mkAttr ("atk", "5"), mkAttr ("def", "1")] "def" (JSNum.finite 0))
        (parser.numberAttribute [mkAttr ("atk", "7"), mkAttr ("def", "2")] "def" (JSNum.finite 0)) ∧
      ([] ++ [m]).filter parser.isPairName = [m]) ∧
    (∃ m : ItemRecord,
      parser.parseItems "swords" false [c1NodeR, c1NodeL] [] = Except.ok ([] ++ [m]) ∧
      m.name = JSStrVal.str "l/r hand swords" ∧
      m.atk = JSNum.add
        (parser.numberAttribute [mkAttr ("atk", "5"), mkAttr ("def", "1")] "atk" (JSNum.finite 0))
        (parser.numberAttribute [mkAttr ("atk", "7"), mkAttr ("def", "2")] "atk" (JSNum.finite 0)) ∧
      m.defense = JSNum.add
        (parser.numberAttribute [mkAttr ("atk", "5"), mkAttr ("def", "1")] "def" (JSNum.finite 0))
        (parser.numberAttribute [mkAttr ("atk", "7"), mkAttr ("def", "2")] "def" (JSNum.finite 0)) ∧
      ([] ++ [m]).filter parser.isPairName = [m]) :=
  c1_dual_wield_merge "swords" false [] c1NodeL c1NodeR
    { itemClass := some "sword", subclass := some "img" }
    { itemClass := some "sword", subclass := some "img" }
    [mkAttr ("atk", "5"), mkAttr ("def", "1")] [mkAttr ("atk", "7"), mkAttr ("def", "2")]
    rfl rfl rfl rfl rfl rfl (by decide) (by decide) rfl rfl
    (fun r hr => absurd hr (List.not_mem_nil r))

namespace parser

theorem step_dpt (c : String) (s : Bool) (items : List ItemRecord) (node : ItemNode)
    (out : List ItemRecord) (h : parseItemsStep c s items node = Except.ok out)
    (hinv : ∀ r ∈ items, r.dpt = computeDpt r.atk r.rate) :
    ∀ r ∈ out, r.dpt = computeDpt r.atk r.rate := by
  simp only [parseItemsStep] at h
  split at h
  · exact Except.noConfusion h
  · split at h
    · exact Except.noConfusion h
    · split at h
      · exact Except.noConfusion h
      · split at h
        · injection h with h
          intro r hr
          rw [← h] at hr
          exact hinv r (dualWieldPop_mem _ _ _ hr)
        · injection h with h
          intro r hr
          rw [← h] at hr
          rcases List.mem_append.mp hr with hmem | hmem
          · exact hinv r (dualWieldPop_mem _ _ _ hmem)
          · rcases List.mem_singleton.mp hmem with rfl
            simp

theorem parseItems_dpt (c : String) (s : Bool) :
    ∀ (nodes : List ItemNode) (items out : List ItemRecord),
      parseItems c s nodes items = Except.ok out →
      (∀ r ∈ items, r.dpt = computeDpt r.atk r.rate) →
      ∀ r ∈ out, r.dpt = computeDpt r.atk r.rate := by
  intro nodes
  induction nodes with
  | nil =>
    intro items out h hinv
    simp only [parseItems, Except.ok.injEq] at h
    rw [← h]
    exact hinv
  | cons n rest ih =>
    intro items out h hinv
    cases hstep : parseItemsStep c s items n with
    | error e => simp [parseItems, hstep] at h
    | ok items1 =>
      simp only [parseItems, hstep] at h
      exact ih items1 out h (step_dpt c s items n items1 hstep hinv)

theorem computeDpt_rate_nonzero (a b : ℚ) (hb : b ≠ 0) :
    computeDpt (JSNum.finite a) (JSNum.finite b) =
      JSNum.finite (((⌊a / b * 100 + 1/2⌋ : ℤ) : ℚ) / 100) := by
  have h100 : (100 : ℚ) ≠ 0 := by norm_num
  simp [computeDpt, JSNum.div, JSNum.mul, JSNum.round, hb, h100]

theorem computeDpt_rate_zero (a : ℚ) :
    computeDpt (JSNum.finite a) (JSNum.finite 0) =
      (if 0 < a then JSNum.inf else if a < 0 then JSNum.negInf else JSNum.nan) := by
  rcases lt_trichotomy a 0 with hlt | heq | hgt
  · simp [computeDpt, JSNum.div, JSNum.mul, JSNum.round, hlt, not_lt.mpr hlt.le,
      asymm hlt]
  · subst heq
    simp [computeDpt, JSNum.div, JSNum.mul, JSNum.round]
  · simp [computeDpt, JSNum.div, JSNum.mul, JSNum.round, hgt, not_lt.mpr hgt.le]

end parser

/-- C2 (amended): every record produced by a population run starting
from an empty collection has `dpt = Math.round(atk / rate * 100) / 100`
computed from that record's own (post-merge) atk and rate; for a
nonzero finite rate this is the rounded quotient, while for rate = 0
the code propagates the IEEE result of the division — `Infinity` for
positive atk, `-Infinity` for negative atk, `NaN` for atk = 0 — and
never a finite fallback. -/
theorem c2_dpt_derivation :
    (∀ (c : String) (s : Bool) (nodes : List ItemNode) (out : List ItemRecord),
      parser.parseItems c s nodes [] = Except.ok out →
      ∀ r ∈ out, r.dpt = parser.computeDpt r.atk r.rate) ∧
    (∀ a b : ℚ, b ≠ 0 →
      parser.computeDpt (JSNum.finite a) (JSNum.finite b) =
        JSNum.finite (((⌊a / b * 100 + 1/2⌋ : ℤ) : ℚ) / 100)) ∧
    (∀ a : ℚ, 0 < a →
      parser.computeDpt (JSNum.finite a) (JSNum.finite 0) = JSNum.inf) ∧
    (∀ a : ℚ, a < 0 →
      parser.computeDpt (JSNum.finite a) (JSNum.finite 0) = JSNum.negInf) ∧
    parser.computeDpt (JSNum.finite 0) (JSNum.finite 0) = JSNum.nan ∧
    (∀ a : ℚ, (parser.computeDpt (JSNum.finite a) (JSNum.finite 0)).isFinite = false) := by
  refine ⟨?_, ?_, ?_, ?_, ?_, ?_⟩
  · intro c s nodes out h
    exact parser.parseItems_dpt c s nodes [] out h (by intro r hr; cases hr)
  · exact parser.computeDpt_rate_nonzero
  · intro a ha
    rw [parser.computeDpt_rate_zero]
    simp [ha]
  · intro a ha
    rw [parser.computeDpt_rate_zero]
    simp [ha, asymm ha]
  · rw [parser.computeDpt_rate_zero]
    simp
  · intro a
    rw [parser.computeDpt_rate_zero]
    rcases lt_trichotomy a 0 with hlt | heq | hgt
    · simp [hlt, asymm hlt, JSNum.isFinite]
    · subst heq
      simp [JSNum.isFinite]
    · simp [hgt, JSNum.isFinite]

/-- Counterexample for C2 as stated: an item with atk 5 and rate 0 is
processed into a record whose dpt is the non-finite `Infinity` — the
division is not guarded, so no deterministic finite fallback is
substituted for rate = 0. -/
theorem c2_counterexample :
    (match parser.parseItems "weapons" false
        [mkNode "zero rate" [("atk", "5"), ("rate", "0")] []] [] with
      | Except.ok [r] => r.dpt
      | _ => JSNum.finite 0) = JSNum.inf ∧
    JSNum.inf.isFinite = false := by
  constructor
  · with_unfolding_all decide
  · rfl

/-- Witness for C2: the dpt formula evaluated at the end-to-end example
(atk 4, rate 2 gives dpt 2) and at the unguarded rate-0 edge case. -/
theorem c2_dpt_derivation_witness :
    parser.computeDpt (JSNum.finite 4) (JSNum.finite 2) = JSNum.finite 2 ∧
    parser.computeDpt (JSNum.finite 5) (JSNum.finite 0) = JSNum.inf := by
  constructor
  · have h := c2_dpt_derivation.2.1 4 2 (by norm_num)
    rw [h]
    norm_num
  · exact c2_dpt_derivation.2.2.1 5 (by norm_num)

/-- A node that `parseItems` processes without throwing: it has a
`<type>` element, an `<attributes>` element, and no `statusattack`
attribute element whose `value` attribute is missing (`null`). -/
def wellFormedNode (n : ItemNode) : Bool :=
  n.typeInfo.isSome &&
    (match n.attributes with
     | none => false
     | some bag => !(parser.stringAttribute bag "statusattack" == JSStrVal.null))

/-- Counterexample for C3 as stated: an item document whose item lacks
the nested `<type>` descriptor makes `parseItems` throw a `TypeError`
(`typeInfo.getAttribute` on `undefined`), so the exception propagates
out of the core transformation instead of resolving to a default. -/
theorem c3_counterexample :
    parser.parseItems "weapons" false
      [{ name := some "broken", typeInfo := none, valueInfo := none,
         attributes := some [], susceptibilities := [], unattainable := false }] [] =
      Except.error "TypeError: typeInfo is undefined" := by
  with_unfolding_all decide

/-- C3 (amended): `parseItems` throws on an item exactly when the item
lacks its `<type>` element, lacks its `<attributes>` element, or has a
`statusattack` attribute element with a `null` value (the code calls
`.includes` on it); every document all of whose items are well formed
in this sense is processed to completion with no exception, with all
other degenerate inputs (missing value node, missing individual
attribute children, unparseable numerics) resolving to defaults. -/
theorem c3_no_exceptions :
    (∀ (c : String) (s : Bool) (items : List ItemRecord) (node : ItemNode),
      (∃ e, parser.parseItemsStep c s items node = Except.error e) ↔
        wellFormedNode node = false) ∧
    (∀ (c : String) (s : Bool) (nodes : List ItemNode) (items : List ItemRecord),
      (∀ n ∈ nodes, wellFormedNode n = true) →
      ∃ out, parser.parseItems c s nodes items = Except.ok out) := by
  have hstep : ∀ (c : String) (s : Bool) (items : List ItemRecord) (node : ItemNode),
      (∃ e, parser.parseItemsStep c s items node = Except.error e) ↔
        wellFormedNode node = false := by
    intro c s items node
    cases ht : node.typeInfo with
    | none =>
      simp [parser.parseItemsStep, ht, wellFormedNode]
    | some t =>
      cases ha : node.attributes with
      | none =>
        simp [parser.parseItemsStep, ht, ha, wellFormedNode]
      | some bag =>
        cases hbeq : (parser.stringAttribute bag "statusattack" == JSStrVal.null) with
        | true =>
          simp [parser.parseItemsStep, ht, ha, hbeq, wellFormedNode]
        | false =>
          simp only [parser.parseItemsStep, ht, ha, hbeq, wellFormedNode]
          constructor
          · intro ⟨e, he⟩
            split at he
            · rename_i hcond
              exact absurd hcond (by simp)
            · split at he
              · exact Except.noConfusion he
              · exact Except.noConfusion he
          · intro hcontra
            simp at hcontra
  refine ⟨hstep, ?_⟩
  intro c s nodes
  induction nodes with
  | nil => exact fun items _ => ⟨items, rfl⟩
  | cons n rest ih =>
    intro items hwf
    have hn : wellFormedNode n = true := hwf n (List.mem_cons_self n rest)
    cases hstepn : parser.parseItemsStep c s items n with
    | error e =>
      have := (hstep c s items n).mp ⟨e, hstepn⟩
      rw [hn] at this
      exact Bool.noConfusion this
    | ok items1 =>
      obtain ⟨out, hout⟩ := ih items1 (fun x hx => hwf x (List.mem_cons_of_mem n hx))
      exact ⟨out, by simp [parser.parseItems, hstepn, hout]⟩

/-- Witness for C3: a well-formed one-item document is processed with
no exception. -/
theorem c3_no_exceptions_witness :
    ∃ out, parser.parseItems "weapons" false
      [mkNode "wooden bow" [("atk", "4"), ("rate", "2")] []] [] = Except.ok out :=
  c3_no_exceptions.2 "weapons" false
    [mkNode "wooden bow" [("atk", "4"), ("rate", "2")] []] []
    (by
      intro n hn
      rcases List.mem_singleton.mp hn with rfl
      decide)

namespace parser

theorem stringAttribute_absent (bag : List AttrElem) (nm : String)
    (h : attrFind bag nm = none) : stringAttribute bag nm = JSStrVal.undef := by
  simp [stringAttribute, h]

theorem numberAttribute_absent (bag : List AttrElem) (nm : String) (d : JSNum)
    (h : attrFind bag nm = none) : numberAttribute bag nm d = d := by
  simp [numberAttribute, h]

end parser

/-- C4 (amended): an attribute absent from the attribute bag never
contributes a trait entry and every zero-valued numeric attribute
(lifesteal, atk, def, range, amount) is suppressed rather than printed
as a zero trait — each of atk, def and range is suppressed on its own,
independently of the values of the other stats; however, the special
list is not deduplicated and can contain the same trait string twice
(e.g. when the damagetype equals the trait derived from the status
attack, or when two susceptibility nodes coincide). -/
theorem c4_special_hygiene :
    (∀ bag : List AttrElem, parser.stringAttribute bag "damagetype" = JSStrVal.undef →
      parser.natureTraits bag = []) ∧
    (∀ bag : List AttrElem, parser.stringAttribute bag "statusattack" = JSStrVal.undef →
      parser.statusTraits bag = []) ∧
    parser.susTraits [] = [] ∧
    (∀ bag : List AttrElem,
      parser.numberAttribute bag "lifesteal" (JSNum.finite 0) = JSNum.finite 0 →
      parser.lifestealTraits bag = []) ∧
    (∀ (c : String) (item : ItemRecord), item.atk = JSNum.finite 0 →
      parser.statTraits c item =
        (if !classes.isArmorType c && JSNum.strictNeq item.defense (JSNum.finite 0) then
          [JSStrVal.str ("def (" ++ jsNumToString item.defense ++ ")")]
        else []) ++
        (if !classes.isRangedType c && !classes.isProjectileType c &&
            JSNum.strictNeq item.range (JSNum.finite 0) then
          [JSStrVal.str ("range (" ++ jsNumToString item.range ++ ")")]
        else [])) ∧
    (∀ (c : String) (item : ItemRecord), item.defense = JSNum.finite 0 →
      parser.statTraits c item =
        (if !classes.isWeaponType c && !classes.isProjectileType c &&
            JSNum.strictNeq item.atk (JSNum.finite 0) then
          [JSStrVal.str ("atk=" ++ jsNumToString item.atk)]
        else []) ++
        (if !classes.isRangedType c && !classes.isProjectileType c &&
            JSNum.strictNeq item.range (JSNum.finite 0) then
          [JSStrVal.str ("range (" ++ jsNumToString item.range ++ ")")]
        else [])) ∧
    (∀ (c : String) (item : ItemRecord), item.range = JSNum.finite 0 →
      parser.statTraits c item =
        (if !classes.isWeaponType c && !classes.isProjectileType c &&
            JSNum.strictNeq item.atk (JSNum.finite 0) then
          [JSStrVal.str ("atk=" ++ jsNumToString item.atk)]
        else []) ++
        (if !classes.isArmorType c && JSNum.strictNeq item.defense (JSNum.finite 0) then
          [JSStrVal.str ("def (" ++ jsNumToString item.defense ++ ")")]
        else [])) ∧
    (∀ (c : String) (item : ItemRecord), item.atk = JSNum.finite 0 →
      item.defense = JSNum.finite 0 → item.range = JSNum.finite 0 →
      parser.statTraits c item = []) ∧
    (∀ bag : List AttrElem,
      parser.numberAttribute bag "amount" (JSNum.finite 0) = JSNum.finite 0 →
      parser.consumableTraits bag = []) := by
  refine ⟨?_, ?_, rfl, ?_, ?_, ?_, ?_, ?_, ?_⟩
  · intro bag h
    simp [parser.natureTraits, h]
  · intro bag h
    simp [parser.statusTraits, h]
  · intro bag h
    simp [parser.lifestealTraits, h, JSNum.mul, JSNum.strictNeq, JSNum.strictEq]
  · intro c item hatk
    simp [parser.statTraits, hatk, JSNum.strictNeq, JSNum.strictEq]
  · intro c item hdef
    simp [parser.statTraits, hdef, JSNum.strictNeq, JSNum.strictEq]
  · intro c item hrange
    simp [parser.statTraits, hrange, JSNum.strictNeq, JSNum.strictEq]
  · intro c item hatk hdef hrange
    simp [parser.statTraits, hatk, hdef, hrange, JSNum.strictNeq, JSNum.strictEq]
  · intro bag h
    simp [parser.consumableTraits, h, JSNum.strictNeq, JSNum.strictEq]

/-- Counterexample for C4 as stated: an item with damagetype "ice" and
status attack "fire,ice" is processed into a record whose special list
contains the trait "ice" twice — the list is not deduplicated. -/
theorem c4_counterexample :
    (match parser.parseItems "weapons" false
        [mkNode "twin" [("damagetype", "ice"), ("statusattack", "fire,ice")] []] [] with
      | Except.ok [r] => r.special
      | _ => []) = [JSStrVal.str "ice", JSStrVal.str "ice"] ∧
    ¬ ([JSStrVal.str "ice", JSStrVal.str "ice"] : List JSStrVal).Nodup := by
  constructor
  · with_unfolding_all decide
  · decide

/-- A mixed-stat record for the C4 witness: zero atk and range beside a
nonzero def. -/
def c4item : ItemRecord :=
  { name := JSStrVal.str "shell", itemClass := JSStrVal.str "food",
    image := JSStrVal.str "img", value := JSStrVal.str "0",
    level := JSNum.finite 0, rate := JSNum.finite 0, atk := JSNum.finite 0,
    defense := JSNum.finite 3, range := JSNum.finite 0, dpt := JSNum.finite 0,
    special := [] }

/-- Witness for C4: the suppression facts applied to a bag holding only
an atk attribute — damagetype and amount are absent and contribute no
trait — and to a mixed-stat item whose zero atk and range are
suppressed while the nonzero def still prints. -/
theorem c4_special_hygiene_witness :
    parser.natureTraits [mkAttr ("atk", "5")] = [] ∧
    parser.consumableTraits [mkAttr ("atk", "5")] = [] ∧
    parser.statTraits "food" c4item = [JSStrVal.str "def (3)"] := by
  refine ⟨?_, ?_, ?_⟩
  · exact c4_special_hygiene.1 [mkAttr ("atk", "5")] (by decide)
  · exact c4_special_hygiene.2.2.2.2.2.2.2.2 [mkAttr ("atk", "5")]
      (by with_unfolding_all decide)
  · have h := c4_special_hygiene.2.2.2.2.1 "food" c4item rfl
    rw [h]
    with_unfolding_all decide

/-- C5 (amended): the poison/venom substring check takes precedence;
otherwise, when the status attack contains a comma, the appended trait
is `split(",")[1]` — the second comma-separated field, i.e. the
substring between the first and second commas (which is everything
after the first comma only when the value has a single comma);
otherwise the value is appended verbatim.  `includes` is genuine
substring occurrence. -/
theorem c5_status_attack :
    (∀ s sub : String, jsIncludes s sub = true ↔ sub.toList <:+: s.toList) ∧
    (∀ (bag : List AttrElem) (sa : String),
      parser.stringAttribute bag "statusattack" = JSStrVal.str sa →
      parser.statusTraits bag = [JSStrVal.str (parser.statusTrait sa)]) ∧
    (∀ sa : String, (jsIncludes sa "poison" || jsIncludes sa "venom") = true →
      parser.statusTrait sa = "poison") ∧
    (∀ sa : String, (jsIncludes sa "poison" || jsIncludes sa "venom") = false →
      jsIncludes sa "," = true →
      parser.statusTrait sa = (sa.splitOn ",").getD 1 "") ∧
    (∀ sa : String, (jsIncludes sa "poison" || jsIncludes sa "venom") = false →
      jsIncludes sa "," = false →
      parser.statusTrait sa = sa) ∧
    parser.statusTrait "poison,weak" = "poison" ∧
    parser.statusTrait "fire,ice" = "ice" ∧
    parser.statusTrait "a,b,c" = "b" := by
  refine ⟨?_, ?_, ?_, ?_, ?_, by with_unfolding_all decide, by with_unfolding_all decide,
    by with_unfolding_all decide⟩
  · intro s sub
    simp [jsIncludes]
  · intro bag sa h
    simp [parser.statusTraits, h]
  · intro sa h
    simp [parser.statusTrait, h]
  · intro sa h1 h2
    simp [parser.statusTrait, h1, h2]
  · intro sa h1 h2
    simp [parser.statusTrait, h1, h2]

/-- Counterexample for C5 as stated: for status attack "a,b,c" the code
appends "b" (the second comma-separated field), not "b,c" (the
substring after the first comma that the claim requires). -/
theorem c5_counterexample :
    (match parser.parseItems "weapons" false
        [mkNode "st" [("statusattack", "a,b,c")] []] [] with
      | Except.ok [r] => r.special
      | _ => []) = [JSStrVal.str "b"] ∧ ("b" : String) ≠ "b,c" := by
  constructor
  · with_unfolding_all decide
  · decide

/-- Witness for C5: the rules applied to the spec's own examples. -/
theorem c5_status_attack_witness :
    parser.statusTrait "poison,weak" = "poison" ∧ parser.statusTrait "fire,ice" = "ice" := by
  constructor
  · exact c5_status_attack.2.2.1 "poison,weak" (by decide)
  · exact (c5_status_attack.2.2.2.1 "fire,ice" (by decide) (by decide)).trans
      (by with_unfolding_all decide)

namespace parser

theorem susTraits_go (l : List SusElem) (acc : List JSStrVal) :
    l.foldl (fun acc su => acc ++ susTraitOne su) acc = acc ++ susTraits l := by
  induction l generalizing acc with
  | nil => simp [susTraits]
  | cons su rest ih =>
    simp only [susTraits, List.foldl_cons, List.nil_append]
    rw [ih, ih (susTraitOne su), List.append_assoc]

theorem susTraits_cons (su : SusElem) (l : List SusElem) :
    susTraits (su :: l) = susTraitOne su ++ susTraits l := by
  simp only [susTraits, List.foldl_cons, List.nil_append]
  exact susTraits_go l (susTraitOne su)

end parser

/-- C6: for a susceptibility pair with raw multiplier `q`, the code
computes `pct = round(q * 1000) / 10`; when `pct = 100` (display
`100 - pct` zero) no trait is emitted, otherwise the trait
`"<type> (<sign><display>%)"` is appended with an explicit `+` exactly
when the display value is positive; each susceptibility element
contributes its traits independently in order; raw 0.8 yields "+20%"
and raw 1.0 yields no trait. -/
theorem c6_susceptibility (su : SusElem) (q : ℚ)
    (hq : util.parseNumberDefault su.value (JSNum.finite 1) = JSNum.finite q) :
    ((((⌊q * 1000 + 1/2⌋ : ℤ) : ℚ) / 10 = 100) → parser.susTraitOne su = []) ∧
    ((((⌊q * 1000 + 1/2⌋ : ℤ) : ℚ) / 10 ≠ 100) → parser.susTraitOne su =
      [JSStrVal.str (jsOptRender su.type ++ " (" ++
        (if 0 < 100 - ((⌊q * 1000 + 1/2⌋ : ℤ) : ℚ) / 10 then "+" else "") ++
        ratToString (100 - ((⌊q * 1000 + 1/2⌋ : ℤ) : ℚ) / 10) ++ "%)")]) ∧
    (∀ l : List SusElem,
      parser.susTraits (su :: l) = parser.susTraitOne su ++ parser.susTraits l) ∧
    parser.susTraitOne { type := some "fire", value := some "0.8" } =
      [JSStrVal.str "fire (+20%)"] ∧
    parser.susTraitOne { type := some "fire", value := some "1.0" } = [] := by
  have h10 : (10 : ℚ) ≠ 0 := by norm_num
  have hval : JSNum.div (JSNum.round (JSNum.mul
      (util.parseNumberDefault su.value (JSNum.finite 1)) (JSNum.finite 1000)))
      (JSNum.finite 10) = JSNum.finite (((⌊q * 1000 + 1/2⌋ : ℤ) : ℚ) / 10) := by
    rw [hq]
    simp [JSNum.mul, JSNum.round, JSNum.div, h10]
  refine ⟨?_, ?_, parser.susTraits_cons su, by with_unfolding_all decide,
    by with_unfolding_all decide⟩
  · intro h100
    rw [one_div] at h100
    simp [parser.susTraitOne, hval, JSNum.strictNeq, JSNum.strictEq, h100]
  · intro h100
    rw [one_div] at h100
    simp [parser.susTraitOne, hval, JSNum.strictNeq, JSNum.strictEq, h100,
      JSNum.sub, JSNum.gtB, jsNumToString]

/-- Witness for C6: the susceptibility rule applied to raw values 0.8
(displayed "+20%") and 1.0 (skipped because pct = 100). -/
theorem c6_susceptibility_witness :
    parser.susTraitOne { type := some "fire", value := some "0.8" } =
      [JSStrVal.str "fire (+20%)"] ∧
    parser.susTraitOne { type := some "fire", value := some "1.0" } = [] := by
  constructor
  · exact (c6_susceptibility { type := some "fire", value := some "0.8" } (4/5)
      (by with_unfolding_all decide)).2.2.2.1
  · exact (c6_susceptibility { type := some "fire", value := some "1.0" } 1
      (by with_unfolding_all decide)).1 (by with_unfolding_all decide)

/-- C7: `numberAttribute` returns the attribute's value parsed as a
float and falls back to the caller-supplied default when the attribute
element is absent or parsing yields NaN or a non-finite value;
`stringAttribute` returns the element's raw `value` attribute when the
element exists and the distinguished `undefined` sentinel — different
from every string, in particular the empty one — when it is missing. -/
theorem c7_attribute_extractor (bag : List AttrElem) (nm : String) (d : JSNum) :
    (parser.attrFind bag nm = none →
      parser.numberAttribute bag nm d = d ∧
      parser.stringAttribute bag nm = JSStrVal.undef) ∧
    (∀ e : AttrElem, parser.attrFind bag nm = some e →
      parser.stringAttribute bag nm = optToJS e.value ∧
      (((jsParseFloatOpt e.value).isNaN || !(jsParseFloatOpt e.value).isFinite) = true →
        parser.numberAttribute bag nm d = d) ∧
      (((jsParseFloatOpt e.value).isNaN || !(jsParseFloatOpt e.value).isFinite) = false →
        parser.numberAttribute bag nm d = jsParseFloatOpt e.value)) ∧
    (∀ s : String, JSStrVal.undef ≠ JSStrVal.str s) := by
  refine ⟨?_, ?_, fun s h => JSStrVal.noConfusion h⟩
  · intro h
    exact ⟨parser.numberAttribute_absent bag nm d h, parser.stringAttribute_absent bag nm h⟩
  · intro e he
    refine ⟨by simp [parser.stringAttribute, he], ?_, ?_⟩
    · intro hbad
      simp [parser.numberAttribute, he, util.parseNumberDefault, hbad]
    · intro hgood
      simp [parser.numberAttribute, he, util.parseNumberDefault, hgood]

/-- Witness for C7: a bag holding only an atk element — looking up
"def" takes the caller's default and the absent sentinel, looking up
"atk" parses the stored value. -/
theorem c7_attribute_extractor_witness :
    (parser.numberAttribute [mkAttr ("atk", "5")] "def" (JSNum.finite 0) = JSNum.finite 0 ∧
      parser.stringAttribute [mkAttr ("atk", "5")] "def" = JSStrVal.undef) ∧
    parser.stringAttribute [mkAttr ("atk", "5")] "atk" = optToJS (some "5") := by
  constructor
  · exact (c7_attribute_extractor [mkAttr ("atk", "5")] "def" (JSNum.finite 0)).1 (by decide)
  · exact ((c7_attribute_extractor [mkAttr ("atk", "5")] "atk" (JSNum.finite 0)).2.1
      (mkAttr ("atk", "5")) (by decide)).1

/-- C8: the classification predicates hold exactly for the group's own
name or the members of its static table; `isRangedType` matches only
the literal "ranged".  In particular "axes" and "weapons" are weapon
types, "legs" is an armor type and "swords" is not a ranged type. -/
theorem c8_classification :
    (∀ n : String,
      (classes.isWeaponType n = true ↔
        (n = "weapons" ∨ n = "axes" ∨ n = "clubs" ∨ n = "ranged" ∨ n = "swords" ∨ n = "whips")) ∧
      (classes.isArmorType n = true ↔
        (n = "protective" ∨ n = "armors" ∨ n = "boots" ∨ n = "cloaks" ∨ n = "helmets" ∨
          n = "legs" ∨ n = "shields")) ∧
      (classes.isRangedType n = true ↔ n = "ranged") ∧
      (classes.isProjectileType n = true ↔
        (n = "projectiles" ∨ n = "arrows" ∨ n = "missiles"))) ∧
    classes.isWeaponType "axes" = true ∧
    classes.isWeaponType "weapons" = true ∧
    classes.isArmorType "legs" = true ∧
    classes.isRangedType "swords" = false := by
  refine ⟨?_, by decide, by decide, by decide, by decide⟩
  intro n
  refine ⟨?_, ?_, ?_, ?_⟩
  · simp [classes.isWeaponType, classes.groups_weapons]
  · simp [classes.isArmorType, classes.groups_protective]
  · simp [classes.isRangedType]
  · simp [classes.isProjectileType, classes.groups_projectiles]

/-- Witness for C8: the classification equivalences applied at concrete
class names. -/
theorem c8_classification_witness :
    classes.isWeaponType "clubs" = true ∧ classes.isProjectileType "arrows" = true := by
  constructor
  · exact (c8_classification.1 "clubs").1.mpr (by tauto)
  · exact (c8_classification.1 "arrows").2.2.2.mpr (by tauto)

namespace parser

@[simp] theorem finalize_itemClass (c : String) (bag : List AttrElem) (sus : List SusElem)
    (item : ItemRecord) : (finalize c bag sus item).itemClass = item.itemClass := rfl

@[simp] theorem finalize_image (c : String) (bag : List AttrElem) (sus : List SusElem)
    (item : ItemRecord) : (finalize c bag sus item).image = item.image := rfl

@[simp] theorem finalize_value (c : String) (bag : List AttrElem) (sus : List SusElem)
    (item : ItemRecord) : (finalize c bag sus item).value = item.value := rfl

@[simp] theorem finalize_level (c : String) (bag : List AttrElem) (sus : List SusElem)
    (item : ItemRecord) : (finalize c bag sus item).level = item.level := rfl

@[simp] theorem finalize_range (c : String) (bag : List AttrElem) (sus : List SusElem)
    (item : ItemRecord) : (finalize c bag sus item).range = item.range := rfl

@[simp] theorem mergeRecords_itemClass (lr item : ItemRecord) :
    (mergeRecords lr item).itemClass = lr.itemClass := rfl

@[simp] theorem mergeRecords_image (lr item : ItemRecord) :
    (mergeRecords lr item).image = lr.image := rfl

@[simp] theorem mergeRecords_value (lr item : ItemRecord) :
    (mergeRecords lr item).value = lr.value := rfl

@[simp] theorem mergeRecords_level (lr item : ItemRecord) :
    (mergeRecords lr item).level = lr.level := rfl

@[simp] theorem mergeRecords_range (lr item : ItemRecord) :
    (mergeRecords lr item).range = lr.range := rfl

end parser

/-- C9: when the dual-wield merge fires, the surviving (first-arriving)
record keeps its class, image, value, level, rate and range unchanged;
only name, atk, def, dpt and special change — dpt is recomputed from
the combined atk and the first entry's rate, and special is rebuilt
from the second-arriving entry's attribute bag and susceptibility
nodes (applied to the merged record and classification context). -/
theorem c9_merge_frame (c : String) (s : Bool) (items rest : List ItemRecord)
    (lr : ItemRecord) (node : ItemNode) (t : TypeElem) (bag : List AttrElem)
    (ht : node.typeInfo = some t) (ha : node.attributes = some bag)
    (hs : parser.stringAttribute bag "statusattack" ≠ JSStrVal.null)
    (hu : node.unattainable = false)
    (hpop : parser.dualWieldPop (optToJS node.name) items = (some lr, rest)) :
    ∃ m : ItemRecord, parser.parseItemsStep c s items node = Except.ok (rest ++ [m]) ∧
      m.itemClass = lr.itemClass ∧ m.image = lr.image ∧ m.value = lr.value ∧
      m.level = lr.level ∧ m.rate = lr.rate ∧ m.range = lr.range ∧
      m.name = JSStrVal.str "l/r hand swords" ∧
      m.atk = JSNum.add lr.atk (parser.numberAttribute bag "atk" (JSNum.finite 0)) ∧
      m.defense = JSNum.add lr.defense (parser.numberAttribute bag "def" (JSNum.finite 0)) ∧
      m.dpt = parser.computeDpt
        (JSNum.add lr.atk (parser.numberAttribute bag "atk" (JSNum.finite 0))) lr.rate ∧
      m.special = parser.specialList c bag node.susceptibilities
        (parser.mergeRecords lr (parser.initRecord node t bag)) := by
  have hstep := parser.parseItemsStep_ok_eq c s items node t bag ht ha hs hu
  rw [hpop] at hstep
  refine ⟨parser.finalize c bag node.susceptibilities
    (parser.mergeRecords lr (parser.initRecord node t bag)), ?_,
    by simp, by simp, by simp, by simp, by simp, by simp, by simp, by simp, by simp,
    by simp, by simp⟩
  simpa using hstep

/-- The first-arriving half's record for the C9 witness. -/
def c9lr : ItemRecord :=
  { name := JSStrVal.str "r hand sword", itemClass := JSStrVal.str "sword",
    image := JSStrVal.str "img", value := JSStrVal.str "0",
    level := JSNum.finite 0, rate := JSNum.finite 3, atk := JSNum.finite 7,
    defense := JSNum.finite 2, range := JSNum.finite 0, dpt := JSNum.finite 0,
    special := [] }

/-- The second-arriving entry for the C9 witness. -/
def c9node : ItemNode := mkNode "l hand sword" [("atk", "5"), ("def", "1")] []

/-- The second-arriving entry's attribute bag for the C9 witness. -/
def c9bag : List AttrElem := [mkAttr ("atk", "5"), mkAttr ("def", "1")]

/-- Witness for C9: the frame theorem applied to a concrete merge. -/
theorem c9_merge_frame_witness :
    ∃ m : ItemRecord,
      parser.parseItemsStep "swords" false [c9lr] c9node = Except.ok ([] ++ [m]) ∧
      m.itemClass = c9lr.itemClass ∧ m.image = c9lr.image ∧ m.value = c9lr.value ∧
      m.level = c9lr.level ∧ m.rate = c9lr.rate ∧ m.range = c9lr.range ∧
      m.name = JSStrVal.str "l/r hand swords" ∧
      m.atk = JSNum.add c9lr.atk (parser.numberAttribute c9bag "atk" (JSNum.finite 0)) ∧
      m.defense = JSNum.add c9lr.defense (parser.numberAttribute c9bag "def" (JSNum.finite 0)) ∧
      m.dpt = parser.computeDpt
        (JSNum.add c9lr.atk (parser.numberAttribute c9bag "atk" (JSNum.finite 0))) c9lr.rate ∧
      m.special = parser.specialList "swords" c9bag c9node.susceptibilities
        (parser.mergeRecords c9lr
          (parser.initRecord c9node { itemClass := some "sword", subclass := some "img" } c9bag)) :=
  c9_merge_frame "swords" false [c9lr] [] c9lr c9node
    { itemClass := some "sword", subclass := some "img" } c9bag
    rfl rfl (by decide) rfl (by with_unfolding_all decide)

/-- The attribute bag with every element of the given tag name removed
(used to state presence/absence equivalences). -/
def removeAttr (bag : List AttrElem) (nm : String) : List AttrElem :=
  bag.filter (fun e => !(e.name == nm))

namespace parser

theorem attrFind_removeAttr (bag : List AttrElem) (nm m : String) (h : ¬(m = nm)) :
    attrFind (removeAttr bag nm) m = attrFind bag m := by
  induction bag with
  | nil => rfl
  | cons e rest ih =>
    by_cases hen : e.name = nm
    · have h1 : (e.name == nm) = true := beq_iff_eq.mpr hen
      have h2 : (e.name == m) = false := by
        rw [beq_eq_false_iff_ne]
        intro hem
        exact h (by rw [← hem, hen])
      simp only [removeAttr, List.filter_cons, h1, Bool.not_true, if_false, reduceIte,
        attrFind, List.find?, h2]
      exact ih
    · have h1 : (e.name == nm) = false := beq_eq_false_iff_ne.mpr hen
      simp only [removeAttr, List.filter_cons, h1, Bool.not_false, if_true, reduceIte,
        attrFind, List.find?]
      cases h2 : (e.name == m) with
      | true => rfl
      | false => exact ih

theorem attrFind_removeAttr_self (bag : List AttrElem) (nm : String) :
    attrFind (removeAttr bag nm) nm = none := by
  induction bag with
  | nil => rfl
  | cons e rest ih =>
    cases h1 : (e.name == nm) with
    | true =>
      simp only [removeAttr, List.filter_cons, h1, Bool.not_true, if_false, reduceIte]
      exact ih
    | false =>
      simp only [removeAttr, List.filter_cons, h1, Bool.not_false, if_true, reduceIte,
        attrFind, List.find?]
      exact ih

end parser

theorem neOfHeadChars (ca cb : Char) (a b : String)
    (ha : a.data.head? = some ca) (hb : b.data.head? = some cb) (hcc : ca ≠ cb) :
    a ≠ b := by
  intro he
  rw [he, hb] at ha
  exact hcc (Option.some.inj ha).symm

/-- C10: when amount is non-zero and immunization is present but equal
to the empty string, the consumable branch behaves exactly as if
immunization were absent: the traits coincide with those for the bag
with the immunization element removed, the heal/hurt trait is appended
(with regen/frequency exactly when frequency differs from 1 or regen
differs from amount), and no cure or immunity-duration trait is ever
appended. -/
theorem c10_empty_immunization (bag : List AttrElem)
    (hemp : parser.stringAttribute bag "immunization" = JSStrVal.str "") :
    parser.consumableTraits bag = parser.consumableTraits (removeAttr bag "immunization") ∧
    (∀ q : ℚ, parser.numberAttribute bag "amount" (JSNum.finite 0) = JSNum.finite q → q ≠ 0 →
      parser.consumableTraits bag =
        [JSStrVal.str ((if 0 < q then "heal" else "hurt") ++ " (" ++ ratToString q ++ ")")] ++
        (if (JSNum.strictNeq (parser.numberAttribute bag "frequency" (JSNum.finite 0))
              (JSNum.finite 1) ||
            JSNum.strictNeq (parser.numberAttribute bag "regen" (JSNum.finite 0))
              (JSNum.finite q)) = true then
          [JSStrVal.str ("regen (" ++
             jsNumToString (parser.numberAttribute bag "regen" (JSNum.finite 0)) ++ ")"),
           JSStrVal.str ("frequency (" ++
             jsNumToString (parser.numberAttribute bag "frequency" (JSNum.finite 0)) ++ ")")]
        else []) ∧
      (∀ cs : String,
        JSStrVal.str ("cure (" ++ cs ++ ")") ∉ parser.consumableTraits bag) ∧
      (∀ cs : String,
        JSStrVal.str ("immunity duration (" ++ cs ++ ")") ∉ parser.consumableTraits bag)) := by
  have hamount := parser.attrFind_removeAttr bag "immunization" "amount" (by decide)
  have hregen := parser.attrFind_removeAttr bag "immunization" "regen" (by decide)
  have hfreq := parser.attrFind_removeAttr bag "immunization" "frequency" (by decide)
  have hsent : parser.stringAttribute (removeAttr bag "immunization") "immunization" =
      JSStrVal.undef :=
    parser.stringAttribute_absent _ _ (parser.attrFind_removeAttr_self bag "immunization")
  constructor
  · simp [parser.consumableTraits, parser.numberAttribute, hamount, hregen, hfreq,
      hemp, hsent, jsTruthy]
  · intro q hq hq0
    have hneq : JSNum.strictNeq (JSNum.finite q) (JSNum.finite 0) = true := by
      show (!(q == (0 : ℚ))) = true
      rw [beq_eq_false_iff_ne.mpr hq0]
      rfl
    have hform : parser.consumableTraits bag =
        [JSStrVal.str ((if 0 < q then "heal" else "hurt") ++ " (" ++ ratToString q ++ ")")] ++
        (if (JSNum.strictNeq (parser.numberAttribute bag "frequency" (JSNum.finite 0))
              (JSNum.finite 1) ||
            JSNum.strictNeq (parser.numberAttribute bag "regen" (JSNum.finite 0))
              (JSNum.finite q)) = true then
          [JSStrVal.str ("regen (" ++
             jsNumToString (parser.numberAttribute bag "regen" (JSNum.finite 0)) ++ ")"),
           JSStrVal.str ("frequency (" ++
             jsNumToString (parser.numberAttribute bag "frequency" (JSNum.finite 0)) ++ ")")]
        else []) := by
      simp [parser.consumableTraits, hneq, hq, hemp, jsTruthy, JSNum.gtB, jsNumToString]
    have hgen : ∀ (c0 : Char) (pre : String), pre.data.head? = some c0 → c0 ≠ 'h' →
        c0 ≠ 'r' → c0 ≠ 'f' →
        ∀ cs : String, JSStrVal.str (pre ++ cs ++ ")") ∉ parser.consumableTraits bag := by
      intro c0 pre hpre hch hcr hcf cs hmem
      have hhead : (pre ++ cs ++ ")").data.head? = some c0 := by
        rcases hd : pre.data with _ | ⟨c1, rest⟩
        · rw [hd] at hpre
          exact Option.noConfusion hpre
        · rw [hd] at hpre
          have hc1 : c1 = c0 := Option.some.inj hpre
          show ((pre ++ cs) ++ ")").data.head? = some c0
          rw [String.data_append, String.data_append, hd, hc1]
          rfl
      rw [hform] at hmem
      rcases List.mem_append.mp hmem with h1 | h2
      · rw [List.mem_singleton] at h1
        have heq := JSStrVal.str.inj h1
        by_cases hqpos : 0 < q
        · rw [if_pos hqpos] at heq
          refine absurd heq (neOfHeadChars c0 'h' _ _ hhead ?_ hch)
          rfl
        · rw [if_neg hqpos] at heq
          refine absurd heq (neOfHeadChars c0 'h' _ _ hhead ?_ hch)
          rfl
      · by_cases hc : (JSNum.strictNeq (parser.numberAttribute bag "frequency" (JSNum.finite 0))
              (JSNum.finite 1) ||
            JSNum.strictNeq (parser.numberAttribute bag "regen" (JSNum.finite 0))
              (JSNum.finite q)) = true
        · rw [if_pos hc] at h2
          simp only [List.mem_cons, List.not_mem_nil, or_false] at h2
          rcases h2 with h2 | h2
          · refine absurd (JSStrVal.str.inj h2) (neOfHeadChars c0 'r' _ _ hhead ?_ hcr)
            rfl
          · refine absurd (JSStrVal.str.inj h2) (neOfHeadChars c0 'f' _ _ hhead ?_ hcf)
            rfl
        · rw [if_neg hc] at h2
          cases h2
    exact ⟨hform, hgen 'c' "cure (" rfl (by decide) (by decide) (by decide),
      hgen 'i' "immunity duration (" rfl (by decide) (by decide) (by decide)⟩

/-- Witness for C10: a bag with amount 5 and an empty immunization —
the traits are heal (5) plus regen/frequency (their defaults 0 diverge
from the implied values), identical to the immunization-free bag. -/
theorem c10_empty_immunization_witness :
    parser.consumableTraits [mkAttr ("amount", "5"), mkAttr ("immunization", "")] =
      parser.consumableTraits
        (removeAttr [mkAttr ("amount", "5"), mkAttr ("immunization", "")] "immunization") ∧
    parser.consumableTraits [mkAttr ("amount", "5"), mkAttr ("immunization", "")] =
      [JSStrVal.str "heal (5)", JSStrVal.str "regen (0)", JSStrVal.str "frequency (0)"] := by
  have h := c10_empty_immunization [mkAttr ("amount", "5"), mkAttr ("immunization", "")]
    (by decide)
  refine ⟨h.1, ?_⟩
  have h2 := (h.2 5 (by with_unfolding_all decide) (by norm_num)).1
  rw [h2]
  with_unfolding_all decide
